import Mathlib

/-!
Verification development for the recs-backend repository.

The repository serves `GET /api/recs?v=<VIDEO_ID>` and extracts a bounded,
deduplicated list of recommendation items from an upstream watch page.
It has two variants:

* `src/api/recs.js` (first document): a fetch-based handler; the extraction
  works over the raw HTML text with two regex passes (`pickFromHtml`) and an
  entity decoder (`decodeEntities`).
* `src/api/recs.js` (second document, the main Playwright server): a cached
  Express server navigating a shared browser context; extraction reads the
  embedded structured object of the page (`window.ytInitialData`) in a single pass
  handling the modern `lockupViewModel` shape and the legacy
  `compactVideoRenderer` shape, with a rendered-DOM `$$eval` fallback; results
  are cached for five minutes in an in-memory map.

This file shallowly embeds those parts.  The in-page evaluation code runs on
untyped JSON-like data with JavaScript property-access semantics, so we embed
a JSON value type `JVal` together with the small fragment of JavaScript
semantics the code uses: truthiness, `||`, plain property access (which throws
a TypeError on `null`/`undefined` receivers, modelled with `Except`),
optional chaining `?.`, array indexing, `for..of` iteration and `.map`
(which throw on non-iterable/non-array receivers).  `null` and `undefined`
are conflated as `JVal.null`: the embedded code never distinguishes them
(both are falsy, both make plain access throw, both make `?.` short-circuit).
-/

set_option linter.unusedVariables false

deriving instance DecidableEq for Except

namespace RecsBackend

/-- A JSON-like runtime value, as seen by the in-page extraction code. -/
inductive JVal : Type where
  | null : JVal
  | bool : Bool → JVal
  | num : Int → JVal
  | str : String → JVal
  | arr : List JVal → JVal
  | obj : List (String × JVal) → JVal

instance : Inhabited JVal := ⟨JVal.null⟩

/-- JavaScript truthiness of a value ( `null`/`undefined`, `false`, `0` and
the empty string are falsy; every array and object is truthy). -/
def truthy : JVal → Bool
  | .null => false
  | .bool b => b
  | .num n => n ≠ 0
  | .str s => s ≠ ""
  | .arr _ => true
  | .obj _ => true

/-- JavaScript `a || b` on values: the left operand if truthy, else the right. -/
def jvOr (a b : JVal) : JVal := if truthy a then a else b

/-- Optional-chained property access `v?.k`: `undefined` when the receiver is
nullish, the property (or `undefined` for a missing key) on an object, and
`undefined` on primitive receivers.  Total: `?.` never throws. -/
def jsGetOpt (v : JVal) (k : String) : JVal :=
  match v with
  | .obj fs => (List.lookup k fs).getD .null
  | _ => .null

/-- Plain property access `v.k` on a receiver that is statically known to be
truthy (hence non-nullish), where access is total; same result as `jsGetOpt`. -/
def jsGetT (v : JVal) (k : String) : JVal := jsGetOpt v k

/-- Plain property access `v.k` in a position where the receiver may be
nullish: a TypeError (modelled as `Except.error`) on `null`/`undefined`,
otherwise the property (missing keys and primitive receivers give
`undefined`). -/
def jsGet : JVal → String → Except Unit JVal
  | .null, _ => .error ()
  | .obj fs, k => .ok ((List.lookup k fs).getD .null)
  | _, _ => .ok .null

/-- A chain of optional accesses `v?.k₁?.k₂...`. -/
def optChain (v : JVal) : List String → JVal
  | [] => v
  | k :: ks => optChain (jsGetOpt v k) ks

/-- JavaScript string coercion, for the value positions the code feeds into
strings (ids, titles, urls, durations).  Upstream these are always strings;
the other cases follow `String(x)` (with `null`/`undefined` conflated, and
array coercion approximated by the empty string, its value for the arrays
the code can meet here, namely ones it never builds). -/
def jsStr : JVal → String
  | .str s => s
  | .num n => toString n
  | .bool b => if b then "true" else "false"
  | .null => "null"
  | .arr _ => ""
  | .obj _ => "[object Object]"

/-- `for..of` iteration: arrays iterate their elements, strings iterate their
characters, everything else (including objects and numbers) throws a
TypeError.  Receivers here are always truthy (they sit behind `|| []`). -/
def jsIter : JVal → Except Unit (List JVal)
  | .arr xs => .ok xs
  | .str s => .ok (s.data.map (fun c => .str (String.singleton c)))
  | _ => .error ()

/-- Receiver of an `Array.prototype.map`/`.find` call: only arrays have the
method, every other receiver throws a TypeError. -/
def jsArr : JVal → Except Unit (List JVal)
  | .arr xs => .ok xs
  | _ => .error ()

/-- Indexing `v[v.length - 1]`: the last element of an array (or `undefined`
when empty, since `arr[-1]` is `undefined`), the last character of a string,
`undefined` otherwise. -/
def jsLastIndex : JVal → JVal
  | .arr xs => (xs.getLast?).getD .null
  | .str s => match s.data.getLast? with
    | some c => .str (String.singleton c)
    | none => .null
  | _ => .null

/-- Indexing `v[0]`: the first element of an array, the first character of a
string, `undefined` otherwise. -/
def jsFirstIndex : JVal → JVal
  | .arr xs => (xs.head?).getD .null
  | .str s => match s.data.head? with
    | some c => .str (String.singleton c)
    | none => .null
  | _ => .null

/-- `String.prototype.trim`: strip leading and trailing whitespace
(the ids and rendered texts the code trims only carry ASCII whitespace). -/
def jsTrim (s : String) : String :=
  ⟨((s.data.dropWhile Char.isWhitespace).reverse.dropWhile Char.isWhitespace).reverse⟩

/-- The canonical id-derived thumbnail URL
`https://img.youtube.com/vi/<id>/hqdefault.jpg`. -/
def canonicalThumb (id : String) : String :=
  "https://img.youtube.com/vi/" ++ id ++ "/hqdefault.jpg"

/-- The shared thumbnail selection expression
`(sources[sources.length - 1] || sources[0] || {}).url || canonical(id)`
used by both structured shapes. -/
def jsPickThumb (sources : JVal) (id : String) : String :=
  let sel := jvOr (jsLastIndex sources) (jvOr (jsFirstIndex sources) (.obj []))
  let urlV := jsGetOpt sel "url"
  if truthy urlV then jsStr urlV else canonicalThumb id

/-- A four-character window `digit ':' digit digit`. -/
def durWindow : List Char → Bool
  | a :: b :: c :: d :: _ => a.isDigit && b = ':' && c.isDigit && d.isDigit
  | _ => false

def durTestL : List Char → Bool
  | [] => false
  | c :: cs => durWindow (c :: cs) || durTestL cs

/-- The test of the duration pattern `\d+:\d{2}(?::\d{2})?`: a string passes
iff it contains a window `digit ':' digit digit` (any regex match ends in
such a window after its mandatory part, and any such window is itself a
match with a one-digit `\d+` part, so the two tests coincide). -/
def durTest (s : String) : Bool := durTestL s.data

/-- A recommendation item of the Playwright server:
`{ id, title, thumb, duration }` with `duration: null` modelled as `none`. -/
structure Item where
  id : String
  title : String
  thumb : String
  duration : Option String
deriving DecidableEq, Repr

/-! ### Structured tier: the `page.evaluate` body (recs.js lines 195-258) -/

/-- `lvm.contentImage?.thumbnailViewModel ||
lvm.contentImage?.collectionThumbnailViewModel?.primaryThumbnail?.thumbnailViewModel`. -/
def modernThumbVM (lvm : JVal) : JVal :=
  jvOr (jsGetOpt (jsGetT lvm "contentImage") "thumbnailViewModel")
    (optChain (jsGetT lvm "contentImage")
      ["collectionThumbnailViewModel", "primaryThumbnail", "thumbnailViewModel"])

/-- `lvm.metadata?.lockupMetadataViewModel?.title?.content || id`. -/
def modernTitle (lvm : JVal) (id : String) : String :=
  let t := optChain (jsGetT lvm "metadata") ["lockupMetadataViewModel", "title", "content"]
  if truthy t then jsStr t else id

/-- Thumbnail of a modern entry: the selection expression applied to
`thumbVM?.image?.sources || []`. -/
def modernThumb (lvm : JVal) (id : String) : String :=
  jsPickThumb (jvOr (optChain (modernThumbVM lvm) ["image", "sources"]) (.arr [])) id

/-- Inner loop over `thumbnailBadges`: `badge.thumbnailBadgeViewModel?.text`,
kept when truthy and matching the duration pattern.  The plain access on
`badge` throws when the badges array contains a nullish element. -/
def durLoopBadge : List JVal → Except Unit (Option String)
  | [] => .ok none
  | badge :: bs =>
    match jsGet badge "thumbnailBadgeViewModel" with
    | .error e => .error e
    | .ok bv =>
      let txt := jsGetOpt bv "text"
      if truthy txt && durTest (jsStr txt) then .ok (some (jsStr txt))
      else durLoopBadge bs

/-- Outer loop over `thumbVM?.overlays`:
`ov.thumbnailOverlayBadgeViewModel?.thumbnailBadges || []`, scanning badges
and stopping at the first duration found. -/
def durLoopOv : List JVal → Except Unit (Option String)
  | [] => .ok none
  | ov :: ovs =>
    match jsGet ov "thumbnailOverlayBadgeViewModel" with
    | .error e => .error e
    | .ok b1 =>
      match jsIter (jvOr (jsGetOpt b1 "thumbnailBadges") (.arr [])) with
      | .error e => .error e
      | .ok badges =>
        match durLoopBadge badges with
        | .error e => .error e
        | .ok (some d) => .ok (some d)
        | .ok none => durLoopOv ovs

/-- Duration extraction of a modern entry (recs.js lines 219-231). -/
def modernDuration (thumbVM : JVal) : Except Unit (Option String) :=
  match jsIter (jvOr (jsGetOpt thumbVM "overlays") (.arr [])) with
  | .error e => .error e
  | .ok overlays => durLoopOv overlays

/-- The item built from a modern entry that passed the id checks: the field
computations are pure except the duration scan, which can throw; in the
source the throw happens inside the same loop iteration, before the push. -/
def modernItem (lvm : JVal) : Except Unit Item :=
  match modernDuration (modernThumbVM lvm) with
  | .error e => .error e
  | .ok dur =>
    .ok ⟨jsStr (jsGetT lvm "contentId"), modernTitle lvm (jsStr (jsGetT lvm "contentId")),
      modernThumb lvm (jsStr (jsGetT lvm "contentId")), dur⟩

/-- Processing of one entry in the modern `lockupViewModel` shape
(recs.js lines 204-236): skip on a falsy or already seen `contentId`,
otherwise build the item. -/
def procModern (lvm : JVal) (seen : List String) : Except Unit (Option Item) :=
  let idV := jsGetT lvm "contentId"
  if ¬ truthy idV then .ok none
  else if jsStr idV ∈ seen then .ok none
  else
    match modernItem lvm with
    | .error e => .error e
    | .ok it => .ok (some it)

/-- `r.compactVideoRenderer || r.compactAutoplayRenderer?.content?.compactVideoRenderer`. -/
def legacyCompact (r : JVal) : JVal :=
  jvOr (jsGetT r "compactVideoRenderer")
    (optChain (jsGetT r "compactAutoplayRenderer") ["content", "compactVideoRenderer"])

/-- One title run: `t.text || ''` (plain access, throws on a nullish run). -/
def runText (t : JVal) : Except Unit String :=
  match jsGet t "text" with
  | .error e => .error e
  | .ok x => .ok (if truthy x then jsStr x else "")

def runTexts : List JVal → Except Unit (List String)
  | [] => .ok []
  | t :: ts =>
    match runText t with
    | .error e => .error e
    | .ok s =>
      match runTexts ts with
      | .error e => .error e
      | .ok ss => .ok (s :: ss)

/-- Legacy title: `(compact.title?.runs || []).map(t => t.text || '').join('') || id`.
`.map` on a non-array receiver throws. -/
def legacyTitle (compact : JVal) (id : String) : Except Unit String :=
  match jsArr (jvOr (optChain (jsGetT compact "title") ["runs"]) (.arr [])) with
  | .error e => .error e
  | .ok runs =>
    match runTexts runs with
    | .error e => .error e
    | .ok parts =>
      let j := String.join parts
      .ok (if j = "" then id else j)

/-- `compact.thumbnail?.thumbnails || []`. -/
def legacyThumbs (compact : JVal) : JVal :=
  jvOr (optChain (jsGetT compact "thumbnail") ["thumbnails"]) (.arr [])

/-- Texts of the legacy overlay scan:
`o.thumbnailOverlayTimeStatusRenderer?.text?.simpleText || ''` per overlay
(plain access on `o`, throws on a nullish overlay). -/
def overlayTexts : List JVal → Except Unit (List String)
  | [] => .ok []
  | o :: os =>
    match jsGet o "thumbnailOverlayTimeStatusRenderer" with
    | .error e => .error e
    | .ok t1 =>
      let s := optChain t1 ["text", "simpleText"]
      let part := if truthy s then jsStr s else ""
      match overlayTexts os with
      | .error e => .error e
      | .ok ps => .ok (part :: ps)

/-- Legacy duration (recs.js lines 248-253):
`compact.lengthText?.simpleText || compact.lengthText?.accessibility?.accessibilityData?.label
|| (compact.thumbnailOverlays || []).map(...).find(txt => pattern.test(txt)) || null`.
The `||` chain is short-circuiting, so the overlay scan (and its possible
TypeErrors) only runs when the first two operands are falsy. -/
def legacyDuration (compact : JVal) : Except Unit (Option String) :=
  let a := optChain (jsGetT compact "lengthText") ["simpleText"]
  if truthy a then .ok (some (jsStr a))
  else
    let b := optChain (jsGetT compact "lengthText")
      ["accessibility", "accessibilityData", "label"]
    if truthy b then .ok (some (jsStr b))
    else
      match jsArr (jvOr (jsGetT compact "thumbnailOverlays") (.arr [])) with
      | .error e => .error e
      | .ok ovs =>
        match overlayTexts ovs with
        | .error e => .error e
        | .ok texts => .ok (texts.find? (fun t => durTest t))

/-- The item built from a legacy entry that passed the id checks; the title
run mapping and the duration scan can throw (in source order: title first). -/
def legacyItem (compact : JVal) : Except Unit Item :=
  let id := jsStr (jsGetT compact "videoId")
  match legacyTitle compact id with
  | .error e => .error e
  | .ok title =>
    match legacyDuration compact with
    | .error e => .error e
    | .ok dur => .ok ⟨id, title, jsPickThumb (legacyThumbs compact) id, dur⟩

/-- Processing of one entry in the legacy shape (recs.js lines 239-255). -/
def procLegacy (r : JVal) (seen : List String) : Except Unit (Option Item) :=
  let compact := legacyCompact r
  if ¬ truthy compact then .ok none
  else
    let idV := jsGetT compact "videoId"
    if ¬ truthy idV then .ok none
    else if jsStr idV ∈ seen then .ok none
    else
      match legacyItem compact with
      | .error e => .error e
      | .ok it => .ok (some it)

/-- Processing of one entry of the results list: the plain access
`r.lockupViewModel` throws on a nullish entry; an entry with a truthy
`lockupViewModel` is handled by the modern branch only (the legacy branch is
never consulted for it), every other entry falls through to the legacy
branch. -/
def procEntry (r : JVal) (seen : List String) : Except Unit (Option Item) :=
  match jsGet r "lockupViewModel" with
  | .error e => .error e
  | .ok lvm =>
    if truthy lvm then procModern lvm seen
    else procLegacy r seen

/-- The entry loop (recs.js lines 202-256): push each produced item, record
its id as seen, and break once `out.length >= max` (checked after the push). -/
def structLoop (max : Nat) : List JVal → List Item → List String → Except Unit (List Item)
  | [], out, _ => .ok out
  | r :: rs, out, seen =>
    match procEntry r seen with
    | .error e => .error e
    | .ok none => structLoop max rs out seen
    | .ok (some it) =>
      let out2 := out ++ [it]
      if max ≤ out2.length then .ok out2
      else structLoop max rs out2 (it.id :: seen)

/-- `data?.contents?.twoColumnWatchNextResults?.secondaryResults?.secondaryResults?.results || []`. -/
def secondaryResults (data : JVal) : JVal :=
  jvOr (optChain data ["contents", "twoColumnWatchNextResults", "secondaryResults",
    "secondaryResults", "results"]) (.arr [])

/-- The whole `page.evaluate` body: iterate the results list (a `for..of`,
which throws on a truthy non-iterable value) with the entry loop. -/
def evalStructured (data : JVal) (max : Nat) : Except Unit (List Item) :=
  match jsIter (secondaryResults data) with
  | .error e => .error e
  | .ok results => structLoop max results [] []

/-! ### Raw-document tier: `pickFromHtml` and `decodeEntities`
(first document of recs.js, lines 69-115)

The regex engine is an external collaborator: a snapshot of the raw document
is embedded as the ordered stream of matches its two patterns produce over
the HTML text — `HeadMatch` for the primary heading pattern (capture 1 the
`title="..."` text, capture 2 the `/watch?v=` id) and a plain id list for the
fallback `href="/watch?v=..."` pattern.  The loops, dedup, cap and the
decoding are the code under verification and are embedded directly. -/

/-- One match of the primary heading+link pattern: capture group 1
(the raw title attribute text) and capture group 2 (the video id). -/
structure HeadMatch where
  title : String
  vid : String
deriving DecidableEq, Repr

/-- Replace every non-overlapping occurrence of `pat` (nonempty at every call
site) left to right, exactly as `String.prototype.replace` with a global
literal pattern; `fuel` bounds the recursion and is adequate at `s.length`
since every step consumes at least one character. -/
def replaceFuel (pat rep : List Char) : Nat → List Char → List Char
  | _, [] => []
  | 0, s => s
  | fuel + 1, c :: cs =>
    if pat.isPrefixOf (c :: cs) then rep ++ replaceFuel pat rep fuel ((c :: cs).drop pat.length)
    else c :: replaceFuel pat rep fuel cs

/-- `s.replace(pat, rep)` with a global literal pattern. -/
def jsReplaceAll (s pat rep : String) : String :=
  ⟨replaceFuel pat.data rep.data s.data.length s.data⟩

/-- `decodeEntities` (recs.js lines 108-115): the five global replacements,
applied in source order — `&amp;` first, then `&lt;`, `&gt;`, `&quot;`,
`&#39;`. -/
def decodeEntities (s : String) : String :=
  jsReplaceAll (jsReplaceAll (jsReplaceAll (jsReplaceAll (jsReplaceAll
    s "&amp;" "&") "&lt;" "<") "&gt;" ">") "&quot;" "\"") "&#39;" "\x27"

/-- A recommendation item of the fetch-based handler: `{ id, title, thumb }`. -/
structure ItemF where
  id : String
  title : String
  thumb : String
deriving DecidableEq, Repr

/-- The item built from a primary heading match:
`{ id, title: decodeEntities(m[1] || '') || id, thumb: canonical(id) }`. -/
def mkHeadItem (m : HeadMatch) : ItemF :=
  let rawTitle := decodeEntities m.title
  ⟨m.vid, if rawTitle = "" then m.vid else rawTitle, canonicalThumb m.vid⟩

/-- The item built from a fallback link match: title is the id itself. -/
def mkFallbackItem (i : String) : ItemF :=
  ⟨i, i, canonicalThumb i⟩

/-- The shared shape of the three non-throwing scan loops (the two
`pickFromHtml` loops and the `$$eval` DOM loop): process candidates in
source order while `out.length < limit`, skipping a candidate whose key is
falsy (empty) or already seen, otherwise pushing its item and recording the
key. -/
def scanPick {α β : Type} (key : α → String) (mk : α → β) (limit : Nat) :
    List α → List β → List String → List β × List String
  | [], out, seen => (out, seen)
  | x :: xs, out, seen =>
    if out.length < limit then
      if key x = "" ∨ key x ∈ seen then scanPick key mk limit xs out seen
      else scanPick key mk limit xs (out ++ [mk x]) (key x :: seen)
    else (out, seen)

/-- `pickFromHtml(html, limit)` over the match-stream snapshot: the primary
loop runs first; only when it produced no item (`if (!out.length)`) does the
fallback link loop run, continuing with the same `out` and `seen`. -/
def pickFromHtml (primary : List HeadMatch) (fallbackIds : List String)
    (limit : Nat) : List ItemF :=
  let p := scanPick HeadMatch.vid mkHeadItem limit primary [] []
  if p.1.length = 0 then (scanPick (fun i => i) mkFallbackItem limit fallbackIds p.1 p.2).1
  else p.1

/-! ### Rendered-DOM tier: the `$$eval` fallback (recs.js lines 262-282) -/

/-- The watch link element of a card: its `href` attribute
(`getAttribute` may return null) and the resolved `src` of a nested `img`
element when one exists. -/
structure DomLink where
  href : Option String
  imgSrc : Option String
deriving DecidableEq, Repr

/-- A rendered recommendation card as the `$$eval` callback queries it. -/
structure DomCard where
  link : Option DomLink
  titleText : Option String
  durText : Option String
deriving DecidableEq, Repr

/-- Characters of the class `[\w-]`. -/
def vchar (c : Char) : Bool := c.isAlpha || c.isDigit || c = '_' || c = '-'

/-- First match of `v=([\w-]{6,})` over the character list: at each position
try `v=` followed by a maximal (greedy) run of `[\w-]` of length at least 6,
else advance one character. -/
def matchVL : List Char → Option String
  | [] => none
  | c :: cs =>
    match c, cs with
    | 'v', '=' :: rest =>
      let run := rest.takeWhile vchar
      if 6 ≤ run.length then some (String.mk run) else matchVL cs
    | _, _ => matchVL cs

/-- `href.match(/v=([\w-]{6,})/)` capture, or `none`. -/
def matchV (s : String) : Option String := matchVL s.data

/-- The id the DOM loop extracts from a card:
`(link?.getAttribute('href') || '')` matched with `v=([\w-]{6,})`,
`m ? m[1] : ''`. -/
def domKey (card : DomCard) : String :=
  (matchV ((card.link.bind DomLink.href).getD "")).getD ""

/-- The item the DOM loop pushes for a card (recs.js lines 273-279). -/
def mkDomItem (card : DomCard) : Item :=
  let id := domKey card
  let title := match card.titleText with
    | some t => if jsTrim t = "" then id else jsTrim t
    | none => id
  let thumb := match card.link.bind DomLink.imgSrc with
    | some s => if s = "" then canonicalThumb id else s
    | none => canonicalThumb id
  let dur := match card.durText with
    | some d => if jsTrim d = "" then none else some (jsTrim d)
    | none => none
  ⟨id, title, thumb, dur⟩

/-- The `$$eval` DOM scrape: the same scan-loop shape over the card list
(the `if (out.length >= max) break` sits at the top of the loop body). -/
def domPick (cards : List DomCard) (max : Nat) : List Item :=
  (scanPick domKey mkDomItem max cards [] []).1

/-! ### The cached Playwright server: `GET /api/recs` (recs.js lines 173-296) -/

def CACHE_TTL_MS : Nat := 5 * 60 * 1000
def MAX_ITEMS : Nat := 12

/-- One cache entry `{ items, ts }` of the in-memory `recsCache` map. -/
structure CacheEntry where
  items : List Item
  ts : Nat
deriving DecidableEq, Repr

/-- The `recsCache` map, embedded as an association list with map semantics. -/
abbrev Cache : Type := List (String × CacheEntry)

/-- `recsCache.get(videoId)`. -/
def cacheGet (c : Cache) (k : String) : Option CacheEntry :=
  ((List.find? (fun p => p.1 = k) c)).map (fun p => p.2)

/-- `recsCache.set(videoId, entry)`: unconditional overwrite. -/
def cacheSet (c : Cache) (k : String) (e : CacheEntry) : Cache :=
  (k, e) :: List.filter (fun p => p.1 ≠ k) c

/-- Outcome of the awaited upstream steps after the per-request page has been
opened: either navigation succeeded and the two snapshots (the structured
data object and the rendered card list) are available, or `page.goto` threw
(navigation error / timeout). -/
inductive NavOutcome : Type where
  | ok (data : JVal) (cards : List DomCard)
  | fail
deriving Inhabited

/-- The JSON response of the endpoint: status, `items`, optional `error`
code, and whether the body carried `cached: true`. -/
structure RecsResponse where
  status : Nat
  items : List Item
  error : Option String
  cached : Bool
deriving DecidableEq, Repr

/-- Observable side effects of one request: whether the cache was consulted,
whether a per-request page was opened (upstream contact), whether that page
was closed before the response, and whether the shared context was closed. -/
structure Trace where
  cacheChecked : Bool
  pageOpened : Bool
  pageClosed : Bool
  contextClosed : Bool
deriving DecidableEq, Repr

/-- The id validation `/^[a-zA-Z0-9_-]{6,}$/.test(videoId)`. -/
def validId (s : String) : Bool :=
  6 ≤ s.length && s.data.all (fun c => c.isAlpha || c.isDigit || c = '_' || c = '-')

/-- The `GET /api/recs` request handler of the cached Playwright server,
as a function of the query parameter, the cache state, the current clock
(`Date.now()`), and the upstream outcome.  Returns the response, the new
cache state, and the side-effect trace.  The source closes the per-request
page only on the success path (line 285); the catch path (lines 292-295)
returns 500 without closing it, and the shared context is never closed. -/
def handleRecs (v : Option String) (cache : Cache) (now : Nat) (nav : NavOutcome) :
    RecsResponse × Cache × Trace :=
  let videoId := jsTrim (v.getD "")
  if videoId = "" then
    (⟨400, [], some "missing_video_id", false⟩, cache, ⟨false, false, false, false⟩)
  else if ¬ validId videoId then
    (⟨400, [], some "bad_video_id", false⟩, cache, ⟨false, false, false, false⟩)
  else
    let hit : Option (List Item) :=
      match cacheGet cache videoId with
      | some e => if now - e.ts < CACHE_TTL_MS then some e.items else none
      | none => none
    match hit with
    | some its => (⟨200, its, none, true⟩, cache, ⟨true, false, false, false⟩)
    | none =>
      match nav with
      | .fail => (⟨500, [], some "scrape_failed", false⟩, cache, ⟨true, true, false, false⟩)
      | .ok data cards =>
        match evalStructured data MAX_ITEMS with
        | .error _ => (⟨500, [], some "scrape_failed", false⟩, cache, ⟨true, true, false, false⟩)
        | .ok items0 =>
          let items := if items0.length = 0 then domPick cards MAX_ITEMS else items0
          (⟨200, items, none, false⟩, cacheSet cache videoId ⟨items, now⟩,
            ⟨true, true, true, false⟩)

/-! ### The fetch-based handler (first document of recs.js, lines 13-65) -/

/-- Outcome of one `fetchAndParse` attempt: a non-ok HTTP status (`{items: []}`),
a fetched page given by its match-stream snapshot, or a rejected
fetch/text promise (network error), which the catch of the handler turns into
`internal_error`. -/
inductive FetchRes : Type where
  | httpErr
  | page (primary : List HeadMatch) (fallbackIds : List String)
  | crash

/-- `fetchAndParse` (lines 57-65): `none` models a thrown error. -/
def fetchAndParse : FetchRes → Option (List ItemF)
  | .httpErr => some []
  | .page p f => some (pickFromHtml p f 12)
  | .crash => none

/-- Response of the fetch-based handler (GET path; the OPTIONS preflight
branch is not modelled).  The Bool records whether any fetch was attempted. -/
structure FResponse where
  status : Nat
  items : List ItemF
  error : Option String
deriving DecidableEq, Repr

/-- The fetch-based handler (lines 13-52) on a GET request: validation, a
first attempt, a second attempt with extra URL parameters only when the
first yielded no items, `internal_error` on any throw.  `first`/`second` are
the outcomes of the two possible attempts. -/
def serverlessHandler (v : Option String) (first second : FetchRes) :
    FResponse × Bool :=
  let videoId := jsTrim (v.getD "")
  if videoId = "" then (⟨400, [], some "missing_video_id"⟩, false)
  else if ¬ validId videoId then (⟨400, [], some "bad_video_id"⟩, false)
  else
    match fetchAndParse first with
    | none => (⟨500, [], some "internal_error"⟩, true)
    | some items1 =>
      if items1.length = 0 then
        match fetchAndParse second with
        | none => (⟨500, [], some "internal_error"⟩, true)
        | some items2 => (⟨200, items2, none⟩, true)
      else (⟨200, items1, none⟩, true)

/-! ### Lazy session initialization (recs.js lines 150-153)

`getContext` begins with `if (!browser) { browser = await chromium.launch(...) }`.
The await is a suspension point of the event loop, so two concurrent first
requests interleave there.  We model two tasks running this statement over
shared state: each task is at its check, suspended at the launch await, or
done; `launches` counts `chromium.launch` calls (the engine process starts
when the call is made). -/

/-- Program counter of one task running the lazy-init statement. -/
inductive TPC : Type where
  | check
  | assign
  | done
deriving DecidableEq, Repr

/-- Shared state of the lazy initialization: the `browser` variable, the
number of engine launches so far, a fresh-handle counter, and the two task
counters. -/
structure InitState where
  browser : Option Nat
  launches : Nat
  nextId : Nat
  pc1 : TPC
  pc2 : TPC
deriving DecidableEq, Repr

/-- One step of a task: at `check`, a truthy `browser` skips the branch
(reuse), otherwise `chromium.launch` is called and the task suspends at the
await; at `assign`, the resumed task assigns the launched instance to
`browser`. -/
def taskStep : TPC → Option Nat → Nat → Nat →
    TPC × Option Nat × Nat × Nat
  | .check, browser, launches, nextId =>
    match browser with
    | some b => (.done, some b, launches, nextId)
    | none => (.assign, none, launches + 1, nextId)
  | .assign, _, launches, nextId => (.done, some nextId, launches, nextId + 1)
  | .done, browser, launches, nextId => (.done, browser, launches, nextId)

/-- Run one scheduler step: `false` steps task 1, `true` steps task 2. -/
def initStep (s : InitState) (t : Bool) : InitState :=
  if t then
    let r := taskStep s.pc2 s.browser s.launches s.nextId
    ⟨r.2.1, r.2.2.1, r.2.2.2, s.pc1, r.1⟩
  else
    let r := taskStep s.pc1 s.browser s.launches s.nextId
    ⟨r.2.1, r.2.2.1, r.2.2.2, r.1, s.pc2⟩

/-- Run a schedule (a list of scheduler choices). -/
def runSched (s : InitState) : List Bool → InitState
  | [] => s
  | t :: ts => runSched (initStep s t) ts

/-- Both tasks start at their check with no browser launched. -/
def initState0 : InitState := ⟨none, 0, 0, .check, .check⟩

/-! ### Specification-side definitions

These follow the words of the specification (not the code) and exist to be
compared with the embedded code. -/

/-- Modelled from the spec: strategy 1 (structured-modern) run as a tier of
its own — only entries carrying the modern view-model shape contribute. -/
def modernOnlyLoop (max : Nat) : List JVal → List Item → List String → Except Unit (List Item)
  | [], out, _ => .ok out
  | r :: rs, out, seen =>
    match jsGet r "lockupViewModel" with
    | .error e => .error e
    | .ok lvm =>
      if truthy lvm then
        match procModern lvm seen with
        | .error e => .error e
        | .ok none => modernOnlyLoop max rs out seen
        | .ok (some it) =>
          let out2 := out ++ [it]
          if max ≤ out2.length then .ok out2
          else modernOnlyLoop max rs out2 (it.id :: seen)
      else modernOnlyLoop max rs out seen

/-- Modelled from the spec: strategy 2 (structured-legacy) run as a tier of
its own — only entries carrying the legacy renderer shape contribute. -/
def legacyOnlyLoop (max : Nat) : List JVal → List Item → List String → Except Unit (List Item)
  | [], out, _ => .ok out
  | r :: rs, out, seen =>
    match jsGet r "lockupViewModel" with
    | .error e => .error e
    | .ok lvm =>
      if truthy lvm then legacyOnlyLoop max rs out seen
      else
        match procLegacy r seen with
        | .error e => .error e
        | .ok none => legacyOnlyLoop max rs out seen
        | .ok (some it) =>
          let out2 := out ++ [it]
          if max ≤ out2.length then .ok out2
          else legacyOnlyLoop max rs out2 (it.id :: seen)

/-- Modelled from the spec (§4.1 and the claim): the structured strategies
applied in strict priority order, stopping at the first strategy that
yields at least one item — strategy 1 over the whole snapshot first, and
strategy 2 only when strategy 1 yielded zero items. -/
def specTieredStructured (data : JVal) (max : Nat) : Except Unit (List Item) :=
  match jsIter (secondaryResults data) with
  | .error e => .error e
  | .ok results =>
    match modernOnlyLoop max results [] [] with
    | .error e => .error e
    | .ok m =>
      if m.length ≠ 0 then .ok m
      else legacyOnlyLoop max results [] []

/-! ### Analysis definitions -/

/-- The id-extraction prefix of `procEntry`: which id (if any) an entry
offers, independent of the seen set. -/
def entryIdE (r : JVal) : Except Unit (Option String) :=
  match jsGet r "lockupViewModel" with
  | .error e => .error e
  | .ok lvm =>
    if truthy lvm then
      .ok (if truthy (jsGetT lvm "contentId") then some (jsStr (jsGetT lvm "contentId")) else none)
    else
      let compact := legacyCompact r
      if ¬ truthy compact then .ok none
      else .ok (if truthy (jsGetT compact "videoId") then some (jsStr (jsGetT compact "videoId")) else none)

/-- The ordered trace of ids offered by the entries of a snapshot
(entries that throw or offer no id contribute nothing). -/
def idTrace : List JVal → List String
  | [] => []
  | r :: rs =>
    match entryIdE r with
    | .ok (some i) => i :: idTrace rs
    | _ => idTrace rs

/-- The first entry of the list offering the given id. -/
def firstWithId (i : String) : List JVal → Option JVal
  | [] => none
  | r :: rs =>
    match entryIdE r with
    | .ok (some j) => if j = i then some r else firstWithId i rs
    | _ => firstWithId i rs

/-- The results list a snapshot iterates over (empty when iteration throws). -/
def resultsList (data : JVal) : List JVal :=
  match jsIter (secondaryResults data) with
  | .ok l => l
  | .error _ => []

/-- First-occurrence deduplication relative to keys already seen, skipping
empty keys: the specification-side description of what the scan loops keep. -/
def dedupFromBy {α : Type} (key : α → String) (seen : List String) : List α → List α
  | [] => []
  | x :: xs =>
    if key x = "" ∨ key x ∈ seen then dedupFromBy key seen xs
    else x :: dedupFromBy key (key x :: seen) xs

/-! ### Concrete snapshots used in witnesses and counterexamples -/

/-- A modern-shape entry with id `mmmmmm` and thumbnail sources
`[lo.jpg, hi.jpg]`. -/
def exModern : JVal :=
  .obj [("lockupViewModel", .obj [
    ("contentId", .str "mmmmmm"),
    ("metadata", .obj [("lockupMetadataViewModel",
      .obj [("title", .obj [("content", .str "Modern title")])])]),
    ("contentImage", .obj [("thumbnailViewModel", .obj [("image", .obj [("sources",
      .arr [.obj [("url", .str "lo.jpg")], .obj [("url", .str "hi.jpg")]])])])])
  ])]

/-- A legacy-shape entry with id `llllll`. -/
def exLegacy : JVal :=
  .obj [("compactVideoRenderer", .obj [
    ("videoId", .str "llllll"),
    ("title", .obj [("runs", .arr [.obj [("text", .str "Hello ")],
      .obj [("text", .str "World")]])]),
    ("thumbnail", .obj [("thumbnails", .arr [.obj [("url", .str "legacy.jpg")]])]),
    ("lengthText", .obj [("simpleText", .str "3:45")])
  ])]

/-- A full structured snapshot with the given results list. -/
def wrapData (results : List JVal) : JVal :=
  .obj [("contents", .obj [("twoColumnWatchNextResults", .obj [("secondaryResults",
    .obj [("secondaryResults", .obj [("results", .arr results)])])])])]

/-- The item the code extracts from `exModern`. -/
def exItemM : Item := ⟨"mmmmmm", "Modern title", "hi.jpg", none⟩

/-- The item the code extracts from `exLegacy`. -/
def exItemL : Item := ⟨"llllll", "Hello World", "legacy.jpg", some "3:45"⟩

/-- A rendered card yielding id `XyZ_12345`. -/
def exCard : DomCard :=
  ⟨some ⟨some "/watch?v=XyZ_12345&list=RD", none⟩, some " T1 ", none⟩

/-- The item the DOM tier extracts from `exCard`. -/
def exItemCard : Item := ⟨"XyZ_12345", "T1", canonicalThumb "XyZ_12345", none⟩

/-! ### Lemmas about the scan loops -/

theorem scanPick_eq {α β : Type} (key : α → String) (mk : α → β) (l : Nat) :
    ∀ (xs : List α) (out : List β) (seen : List String),
      scanPick key mk l xs out seen =
        (out ++ ((dedupFromBy key seen xs).take (l - out.length)).map mk,
          (((dedupFromBy key seen xs).take (l - out.length)).map key).reverse ++ seen) := by
  intro xs
  induction xs with
  | nil => intro out seen; simp [scanPick, dedupFromBy]
  | cons x xs ih =>
    intro out seen
    by_cases hl : out.length < l
    · by_cases hk : key x = "" ∨ key x ∈ seen
      · simp only [scanPick, if_pos hl, if_pos hk, dedupFromBy, ih]
      · have harith : l - out.length = (l - (out ++ [mk x]).length) + 1 := by
          simp only [List.length_append, List.length_cons, List.length_nil]
          omega
        simp only [scanPick, if_pos hl, if_neg hk, dedupFromBy, ih, harith,
          List.take_succ_cons, List.map_cons, List.reverse_cons,
          List.append_assoc, List.cons_append, List.nil_append, List.singleton_append]
    · have hz : l - out.length = 0 := by omega
      simp only [scanPick, if_neg hl, hz, List.take_zero, List.map_nil,
        List.append_nil, List.reverse_nil, List.nil_append]

theorem dedupFromBy_sublist {α : Type} (key : α → String) :
    ∀ (xs : List α) (seen : List String), List.Sublist (dedupFromBy key seen xs) xs := by
  intro xs
  induction xs with
  | nil => intro seen; simp [dedupFromBy]
  | cons x xs ih =>
    intro seen
    unfold dedupFromBy
    split
    · exact (ih seen).trans (List.sublist_cons_self x xs)
    · exact List.cons_sublist_cons.mpr (ih _)

theorem dedupFromBy_mem {α : Type} (key : α → String) :
    ∀ (xs : List α) (seen : List String) (x : α), x ∈ dedupFromBy key seen xs →
      key x ∉ seen ∧ key x ≠ "" := by
  intro xs
  induction xs with
  | nil => intro seen x hx; simp [dedupFromBy] at hx
  | cons y xs ih =>
    intro seen x hx
    unfold dedupFromBy at hx
    split at hx
    · exact ih seen x hx
    · rename_i hk
      push_neg at hk
      rcases List.mem_cons.mp hx with h | h
      · subst h; exact ⟨hk.2, hk.1⟩
      · have := ih _ x h
        exact ⟨fun hmem => this.1 (List.mem_cons_of_mem _ hmem), this.2⟩

theorem dedupFromBy_keys_nodup {α : Type} (key : α → String) :
    ∀ (xs : List α) (seen : List String), ((dedupFromBy key seen xs).map key).Nodup := by
  intro xs
  induction xs with
  | nil => intro seen; simp [dedupFromBy]
  | cons x xs ih =>
    intro seen
    unfold dedupFromBy
    split
    · exact ih seen
    · simp only [List.map_cons, List.nodup_cons]
      refine ⟨fun hmem => ?_, ih _⟩
      rcases List.mem_map.mp hmem with ⟨y, hy, hky⟩
      exact (dedupFromBy_mem key xs _ y hy).1 (by simp [hky])

theorem dedupFromBy_find {α : Type} (key : α → String) :
    ∀ (xs : List α) (seen : List String) (x : α), x ∈ dedupFromBy key seen xs →
      xs.find? (fun y => key y == key x) = some x := by
  intro xs
  induction xs with
  | nil => intro seen x hx; simp [dedupFromBy] at hx
  | cons y xs ih =>
    intro seen x hx
    unfold dedupFromBy at hx
    split at hx
    · rename_i hk
      have hrec := ih seen x hx
      have hne : key y ≠ key x := by
        rcases dedupFromBy_mem key xs seen x hx with ⟨hns, hne⟩
        intro heq
        rcases hk with h | h
        · exact hne (heq ▸ h)
        · exact hns (heq ▸ h)
      rw [List.find?_cons_of_neg _ (by simp [hne])]
      exact hrec
    · rcases List.mem_cons.mp hx with h | h
      · subst h
        rw [List.find?_cons_of_pos _ (by simp)]
      · rename_i hk
        have hrec := ih _ x h
        have hne : key y ≠ key x := by
          rcases dedupFromBy_mem key xs _ x h with ⟨hns, _⟩
          intro heq
          exact hns (by simp [heq])
        rw [List.find?_cons_of_neg _ (by simp [hne])]
        exact hrec

/-! ### Lemmas about the structured entry loop -/

theorem modernItem_id {lvm : JVal} {it : Item} (h : modernItem lvm = .ok it) :
    it.id = jsStr (jsGetT lvm "contentId") := by
  unfold modernItem at h
  cases hd : modernDuration (modernThumbVM lvm) with
  | error e => simp [hd] at h
  | ok dur =>
    simp only [hd, Except.ok.injEq] at h
    rw [← h]

theorem legacyItem_id {compact : JVal} {it : Item} (h : legacyItem compact = .ok it) :
    it.id = jsStr (jsGetT compact "videoId") := by
  simp only [legacyItem] at h
  cases ht : legacyTitle compact (jsStr (jsGetT compact "videoId")) with
  | error e => simp [ht] at h
  | ok title =>
    simp only [ht] at h
    cases hd : legacyDuration compact with
    | error e => simp [hd] at h
    | ok dur =>
      simp only [hd, Except.ok.injEq] at h
      rw [← h]

theorem procModern_some {lvm : JVal} {seen : List String} {it : Item}
    (h : procModern lvm seen = .ok (some it)) :
    truthy (jsGetT lvm "contentId") = true ∧ it.id = jsStr (jsGetT lvm "contentId") ∧
      it.id ∉ seen ∧ procModern lvm [] = .ok (some it) := by
  simp only [procModern] at h ⊢
  by_cases h1 : ¬ truthy (jsGetT lvm "contentId")
  · rw [if_pos h1] at h; simp at h
  · rw [if_neg h1] at h ⊢
    by_cases h2 : jsStr (jsGetT lvm "contentId") ∈ seen
    · rw [if_pos h2] at h; simp at h
    · rw [if_neg h2] at h
      rw [if_neg (List.not_mem_nil _)]
      cases hmi : modernItem lvm with
      | error e => rw [hmi] at h; simp at h
      | ok it2 =>
        rw [hmi] at h
        simp only [Except.ok.injEq, Option.some.injEq] at h
        subst h
        push_neg at h1
        exact ⟨h1, modernItem_id hmi, by rw [modernItem_id hmi]; exact h2, rfl⟩

theorem procModern_none {lvm : JVal} {seen : List String}
    (h : procModern lvm seen = .ok none) :
    truthy (jsGetT lvm "contentId") = false ∨ jsStr (jsGetT lvm "contentId") ∈ seen := by
  simp only [procModern] at h
  by_cases h1 : ¬ truthy (jsGetT lvm "contentId")
  · left; simpa using h1
  · rw [if_neg h1] at h
    by_cases h2 : jsStr (jsGetT lvm "contentId") ∈ seen
    · right; exact h2
    · rw [if_neg h2] at h
      cases hmi : modernItem lvm with
      | error e => rw [hmi] at h; simp at h
      | ok it2 => rw [hmi] at h; simp at h

theorem procLegacy_some {r : JVal} {seen : List String} {it : Item}
    (h : procLegacy r seen = .ok (some it)) :
    truthy (legacyCompact r) = true ∧
      truthy (jsGetT (legacyCompact r) "videoId") = true ∧
      it.id = jsStr (jsGetT (legacyCompact r) "videoId") ∧
      it.id ∉ seen ∧ procLegacy r [] = .ok (some it) := by
  simp only [procLegacy] at h ⊢
  by_cases h0 : ¬ truthy (legacyCompact r)
  · rw [if_pos h0] at h; simp at h
  · rw [if_neg h0] at h ⊢
    by_cases h1 : ¬ truthy (jsGetT (legacyCompact r) "videoId")
    · rw [if_pos h1] at h; simp at h
    · rw [if_neg h1] at h ⊢
      by_cases h2 : jsStr (jsGetT (legacyCompact r) "videoId") ∈ seen
      · rw [if_pos h2] at h; simp at h
      · rw [if_neg h2] at h
        rw [if_neg (List.not_mem_nil _)]
        cases hmi : legacyItem (legacyCompact r) with
        | error e => rw [hmi] at h; simp at h
        | ok it2 =>
          rw [hmi] at h
          simp only [Except.ok.injEq, Option.some.injEq] at h
          subst h
          push_neg at h0 h1
          exact ⟨h0, h1, legacyItem_id hmi, by rw [legacyItem_id hmi]; exact h2, rfl⟩

theorem procLegacy_none {r : JVal} {seen : List String}
    (h : procLegacy r seen = .ok none) :
    truthy (legacyCompact r) = false ∨
      truthy (jsGetT (legacyCompact r) "videoId") = false ∨
      jsStr (jsGetT (legacyCompact r) "videoId") ∈ seen := by
  simp only [procLegacy] at h
  by_cases h0 : ¬ truthy (legacyCompact r)
  · left; simpa using h0
  · rw [if_neg h0] at h
    by_cases h1 : ¬ truthy (jsGetT (legacyCompact r) "videoId")
    · right; left; simpa using h1
    · rw [if_neg h1] at h
      by_cases h2 : jsStr (jsGetT (legacyCompact r) "videoId") ∈ seen
      · right; right; exact h2
      · rw [if_neg h2] at h
        cases hmi : legacyItem (legacyCompact r) with
        | error e => rw [hmi] at h; simp at h
        | ok it2 => rw [hmi] at h; simp at h

theorem procEntry_some {r : JVal} {seen : List String} {it : Item}
    (h : procEntry r seen = .ok (some it)) :
    entryIdE r = .ok (some it.id) ∧ it.id ∉ seen ∧ procEntry r [] = .ok (some it) := by
  simp only [procEntry] at h
  cases hg : jsGet r "lockupViewModel" with
  | error e => simp [hg] at h
  | ok lvm =>
    simp only [hg] at h
    by_cases hl : truthy lvm
    · rw [if_pos hl] at h
      rcases procModern_some h with ⟨h1, h2, h3, h4⟩
      refine ⟨?_, h3, ?_⟩
      · simp only [entryIdE, hg]
        rw [if_pos hl, if_pos h1, h2]
      · simp only [procEntry, hg]
        rw [if_pos hl]
        exact h4
    · rw [if_neg hl] at h
      rcases procLegacy_some h with ⟨h0, h1, h2, h3, h4⟩
      refine ⟨?_, h3, ?_⟩
      · simp only [entryIdE, hg]
        rw [if_neg hl, if_neg (by simp [h0]), if_pos h1, h2]
      · simp only [procEntry, hg]
        rw [if_neg hl]
        exact h4

theorem procEntry_skipId {r : JVal} {seen : List String} {i : String}
    (h : procEntry r seen = .ok none) (hid : entryIdE r = .ok (some i)) :
    i ∈ seen := by
  simp only [procEntry] at h
  simp only [entryIdE] at hid
  cases hg : jsGet r "lockupViewModel" with
  | error e => simp [hg] at h
  | ok lvm =>
    simp only [hg] at h hid
    by_cases hl : truthy lvm
    · rw [if_pos hl] at h hid
      by_cases hv : truthy (jsGetT lvm "contentId")
      · rw [if_pos hv] at hid
        simp only [Except.ok.injEq, Option.some.injEq] at hid
        subst hid
        rcases procModern_none h with h1 | h1
        · simp [hv] at h1
        · exact h1
      · rw [if_neg hv] at hid
        simp at hid
    · rw [if_neg hl] at h hid
      by_cases hc : truthy (legacyCompact r)
      · rw [if_neg (by simp [hc])] at hid
        by_cases hv : truthy (jsGetT (legacyCompact r) "videoId")
        · rw [if_pos hv] at hid
          simp only [Except.ok.injEq, Option.some.injEq] at hid
          subst hid
          rcases procLegacy_none h with h0 | h0 | h0
          · simp [hc] at h0
          · simp [hv] at h0
          · exact h0
        · rw [if_neg hv] at hid
          simp at hid
      · rw [if_pos (by simp [hc])] at hid
        simp at hid

theorem structLoop_length {max : Nat} :
    ∀ (rs : List JVal) (out : List Item) (seen : List String) (res : List Item),
      out.length < max → structLoop max rs out seen = .ok res → res.length ≤ max := by
  intro rs
  induction rs with
  | nil =>
    intro out seen res hlen h
    simp only [structLoop, Except.ok.injEq] at h
    subst h; omega
  | cons r rs ih =>
    intro out seen res hlen h
    simp only [structLoop] at h
    cases hp : procEntry r seen with
    | error e => simp [hp] at h
    | ok o =>
      cases o with
      | none => simp only [hp] at h; exact ih out seen res hlen h
      | some it =>
        simp only [hp] at h
        by_cases hm : max ≤ (out ++ [it]).length
        · rw [if_pos hm] at h
          simp only [Except.ok.injEq] at h
          subst h
          simp only [List.length_append, List.length_cons, List.length_nil]
          omega
        · rw [if_neg hm] at h
          refine ih _ _ res ?_ h
          omega

theorem structLoop_nodup {max : Nat} :
    ∀ (rs : List JVal) (out : List Item) (seen : List String) (res : List Item),
      (out.map Item.id).Nodup → (∀ i ∈ out.map Item.id, i ∈ seen) →
      structLoop max rs out seen = .ok res → (res.map Item.id).Nodup := by
  intro rs
  induction rs with
  | nil =>
    intro out seen res hnd hsub h
    simp only [structLoop, Except.ok.injEq] at h
    subst h; exact hnd
  | cons r rs ih =>
    intro out seen res hnd hsub h
    simp only [structLoop] at h
    cases hp : procEntry r seen with
    | error e => simp [hp] at h
    | ok o =>
      cases o with
      | none => simp only [hp] at h; exact ih out seen res hnd hsub h
      | some it =>
        simp only [hp] at h
        have hfresh := (procEntry_some hp).2.1
        have hnotin : it.id ∉ out.map Item.id := fun hin => hfresh (hsub _ hin)
        have hnd2 : ((out ++ [it]).map Item.id).Nodup := by
          simp only [List.map_append, List.map_cons, List.map_nil]
          refine List.Nodup.append hnd (List.nodup_singleton _) ?_
          intro a ha hb
          simp only [List.mem_singleton] at hb
          subst hb; exact hnotin ha
        by_cases hm : max ≤ (out ++ [it]).length
        · rw [if_pos hm] at h
          simp only [Except.ok.injEq] at h
          subst h; exact hnd2
        · rw [if_neg hm] at h
          refine ih _ _ res hnd2 ?_ h
          intro i hi
          simp only [List.map_append, List.map_cons, List.map_nil, List.mem_append,
            List.mem_singleton] at hi
          rcases hi with hi | hi
          · exact List.mem_cons_of_mem _ (hsub _ hi)
          · subst hi; exact List.mem_cons_self _ _

theorem idTrace_cons_sublist (r : JVal) (rs : List JVal) :
    List.Sublist (idTrace rs) (idTrace (r :: rs)) := by
  cases h : entryIdE r with
  | error e => simp only [idTrace, h]; exact List.Sublist.refl _
  | ok o =>
    cases o with
    | none => simp only [idTrace, h]; exact List.Sublist.refl _
    | some i => simp only [idTrace, h]; exact List.sublist_cons_self _ _

theorem structLoop_tail {max : Nat} :
    ∀ (rs : List JVal) (out : List Item) (seen : List String) (res : List Item),
      structLoop max rs out seen = .ok res →
      ∃ tail, res = out ++ tail ∧ List.Sublist (tail.map Item.id) (idTrace rs) := by
  intro rs
  induction rs with
  | nil =>
    intro out seen res h
    simp only [structLoop, Except.ok.injEq] at h
    exact ⟨[], by simp [← h], by simp [idTrace]⟩
  | cons r rs ih =>
    intro out seen res h
    simp only [structLoop] at h
    cases hp : procEntry r seen with
    | error e => simp [hp] at h
    | ok o =>
      cases o with
      | none =>
        simp only [hp] at h
        rcases ih out seen res h with ⟨tail, ht1, ht2⟩
        exact ⟨tail, ht1, ht2.trans (idTrace_cons_sublist r rs)⟩
      | some it =>
        simp only [hp] at h
        have hid := (procEntry_some hp).1
        have htr : idTrace (r :: rs) = it.id :: idTrace rs := by
          simp only [idTrace, hid]
        by_cases hm : max ≤ (out ++ [it]).length
        · rw [if_pos hm] at h
          simp only [Except.ok.injEq] at h
          subst h
          refine ⟨[it], rfl, ?_⟩
          rw [htr]
          simp only [List.map_cons, List.map_nil]
          exact List.cons_sublist_cons.mpr (List.nil_sublist _)
        · rw [if_neg hm] at h
          rcases ih _ _ res h with ⟨tail, ht1, ht2⟩
          refine ⟨it :: tail, by simp [ht1], ?_⟩
          rw [htr]
          simp only [List.map_cons]
          exact List.cons_sublist_cons.mpr ht2

theorem structLoop_firstOcc {max : Nat} :
    ∀ (rs : List JVal) (out : List Item) (seen : List String) (res : List Item),
      structLoop max rs out seen = .ok res →
      ∀ it ∈ res, it ∈ out ∨ (it.id ∉ seen ∧
        ∃ r, firstWithId it.id rs = some r ∧ procEntry r [] = .ok (some it)) := by
  intro rs
  induction rs with
  | nil =>
    intro out seen res h it hit
    simp only [structLoop, Except.ok.injEq] at h
    subst h
    exact Or.inl hit
  | cons r rs ih =>
    intro out seen res h it hit
    simp only [structLoop] at h
    cases hp : procEntry r seen with
    | error e => simp [hp] at h
    | ok o =>
      cases o with
      | none =>
        simp only [hp] at h
        rcases ih out seen res h it hit with hl | ⟨hns, r2, hf, hproc⟩
        · exact Or.inl hl
        · refine Or.inr ⟨hns, r2, ?_, hproc⟩
          cases hid : entryIdE r with
          | error e => simp only [firstWithId, hid]; exact hf
          | ok o2 =>
            cases o2 with
            | none => simp only [firstWithId, hid]; exact hf
            | some j =>
              have hj : j ∈ seen := procEntry_skipId hp hid
              have hne : j ≠ it.id := fun he => hns (he ▸ hj)
              simp only [firstWithId, hid]
              rw [if_neg hne]
              exact hf
      | some it0 =>
        simp only [hp] at h
        rcases procEntry_some hp with ⟨hid, hfresh, hindep⟩
        have hfw : firstWithId it0.id (r :: rs) = some r := by
          simp [firstWithId, hid]
        by_cases hm : max ≤ (out ++ [it0]).length
        · rw [if_pos hm] at h
          simp only [Except.ok.injEq] at h
          subst h
          rcases List.mem_append.mp hit with hl | hl
          · exact Or.inl hl
          · simp only [List.mem_singleton] at hl
            subst hl
            exact Or.inr ⟨hfresh, r, hfw, hindep⟩
        · rw [if_neg hm] at h
          rcases ih _ _ res h it hit with hl | ⟨hns, r2, hf, hproc⟩
          · rcases List.mem_append.mp hl with hl2 | hl2
            · exact Or.inl hl2
            · simp only [List.mem_singleton] at hl2
              subst hl2
              exact Or.inr ⟨hfresh, r, hfw, hindep⟩
          · have hns2 : it.id ∉ seen := fun hin => hns (List.mem_cons_of_mem _ hin)
            have hne : it.id ≠ it0.id := fun he => hns (he ▸ List.mem_cons_self _ _)
            refine Or.inr ⟨hns2, r2, ?_, hproc⟩
            simp only [firstWithId, hid]
            rw [if_neg (fun he => hne he.symm)]
            exact hf

/-! ### Corollaries for the scan loops and the structured pass -/

theorem mkHeadItem_id (m : HeadMatch) : (mkHeadItem m).id = m.vid := rfl

theorem mkFallbackItem_id (i : String) : (mkFallbackItem i).id = i := rfl

theorem mkDomItem_id (c : DomCard) : (mkDomItem c).id = domKey c := rfl

theorem scanPick_closed {α β : Type} (key : α → String) (mk : α → β) (l : Nat) (xs : List α) :
    (scanPick key mk l xs [] []).1 = ((dedupFromBy key [] xs).take l).map mk := by
  rw [scanPick_eq]
  simp

theorem scanPick_empty_snd {α β : Type} (key : α → String) (mk : α → β) (l : Nat) (xs : List α)
    (h : (scanPick key mk l xs [] []).1 = []) : (scanPick key mk l xs [] []).2 = [] := by
  rw [scanPick_eq] at h ⊢
  simp only [List.nil_append, List.append_nil, Nat.sub_zero, List.length_nil] at h ⊢
  rw [List.map_eq_nil_iff] at h
  rw [h]
  simp

theorem scanPick_length {α β : Type} (key : α → String) (mk : α → β) (l : Nat) (xs : List α) :
    (scanPick key mk l xs [] []).1.length ≤ l := by
  rw [scanPick_closed, List.length_map, List.length_take]
  exact min_le_left _ _

theorem scanPick_map_id {α β : Type} (key : α → String) (mk : α → β) (idf : β → String)
    (hmk : ∀ x, idf (mk x) = key x) (l : Nat) (xs : List α) :
    ((scanPick key mk l xs [] []).1).map idf = ((dedupFromBy key [] xs).take l).map key := by
  rw [scanPick_closed, List.map_map]
  exact List.map_congr_left (fun x hx => hmk x)

theorem scanPick_nodup {α β : Type} (key : α → String) (mk : α → β) (idf : β → String)
    (hmk : ∀ x, idf (mk x) = key x) (l : Nat) (xs : List α) :
    (((scanPick key mk l xs [] []).1).map idf).Nodup := by
  rw [scanPick_map_id key mk idf hmk, List.map_take]
  exact ((List.take_sublist _ _).nodup) (dedupFromBy_keys_nodup key xs [])

theorem scanPick_source_order {α β : Type} (key : α → String) (mk : α → β) (idf : β → String)
    (hmk : ∀ x, idf (mk x) = key x) (l : Nat) (xs : List α) :
    List.Sublist (((scanPick key mk l xs [] []).1).map idf) (xs.map key) := by
  rw [scanPick_map_id key mk idf hmk]
  exact ((List.take_sublist _ _).trans (dedupFromBy_sublist key xs [])).map key

theorem scanPick_firstOcc {α β : Type} (key : α → String) (mk : α → β) (idf : β → String)
    (hmk : ∀ x, idf (mk x) = key x) (l : Nat) (xs : List α) :
    ∀ b ∈ (scanPick key mk l xs [] []).1,
      ∃ x, List.find? (fun y => key y == idf b) xs = some x ∧ b = mk x := by
  intro b hb
  rw [scanPick_closed] at hb
  rcases List.mem_map.mp hb with ⟨x, hx, hbx⟩
  have hxD : x ∈ dedupFromBy key [] xs := (List.take_sublist _ _).subset hx
  refine ⟨x, ?_, hbx.symm⟩
  have hfind := dedupFromBy_find key xs [] x hxD
  rw [← hbx, hmk x]
  exact hfind

theorem cacheGet_set (c : Cache) (k : String) (e : CacheEntry) :
    cacheGet (cacheSet c k e) k = some e := by
  simp [cacheGet, cacheSet]

theorem evalStructured_props {data : JVal} {max : Nat} {res : List Item}
    (hmax : 0 < max) (h : evalStructured data max = .ok res) :
    res.length ≤ max ∧ (res.map Item.id).Nodup ∧
      List.Sublist (res.map Item.id) (idTrace (resultsList data)) ∧
      ∀ it ∈ res, ∃ r, firstWithId it.id (resultsList data) = some r ∧
        procEntry r [] = .ok (some it) := by
  unfold evalStructured at h
  cases hi : jsIter (secondaryResults data) with
  | error e => simp [hi] at h
  | ok results =>
    simp only [hi] at h
    have hrl : resultsList data = results := by simp [resultsList, hi]
    refine ⟨structLoop_length results [] [] res (by simpa using hmax) h,
      structLoop_nodup results [] [] res (by simp) (by simp) h, ?_, ?_⟩
    · rcases structLoop_tail results [] [] res h with ⟨tail, ht1, ht2⟩
      rw [hrl]
      simpa [ht1] using ht2
    · intro it hit
      rcases structLoop_firstOcc results [] [] res h it hit with hl | ⟨_, r, hf, hproc⟩
      · simp at hl
      · exact ⟨r, by rw [hrl]; exact hf, hproc⟩

/-! ### Claim theorems -/

/-- Claim C5 (code_bug evidence): each single entity sequence is decoded to
its literal character, but the decoder applies `&amp;` first, so the input
`&amp;quot;` — which encodes the literal text `&quot;` — is double-decoded
to the single character `"` instead of staying `&quot;`. -/
theorem c5_decode_entities_behavior :
    decodeEntities "&amp;" = "&" ∧ decodeEntities "&lt;" = "<" ∧
    decodeEntities "&gt;" = ">" ∧ decodeEntities "&quot;" = "\"" ∧
    decodeEntities "&#39;" = "\x27" ∧ decodeEntities "&amp;quot;" = "\"" := by
  decide

/-- Claim C7 (code_bug evidence): a request whose navigation throws (after
the per-request page was opened) takes the catch path: the response is 500
`scrape_failed` and the page is left open (`pageClosed = false`), so the
page handle is not closed on that exit path; the shared context, for its
part, is never closed on any path. -/
theorem c7_page_not_closed_on_exception :
    (handleRecs (some "abcdef") [] 0 .fail =
      (⟨500, [], some "scrape_failed", false⟩, [], ⟨true, true, false, false⟩)) ∧
    (∀ (v : Option String) (cache : Cache) (now : Nat) (nav : NavOutcome),
      (handleRecs v cache now nav).2.2.contextClosed = false) := by
  refine ⟨by decide, ?_⟩
  intro v cache now nav
  simp only [handleRecs]
  repeat' (first | rfl | split)

/-- Claim C9 (counterexample): before any browsing session exists, the
interleaving check-check-assign-assign of two first requests completes both
tasks with two engine launches, not exactly one — the lazy-init check is
unguarded across the launch await. -/
theorem c9_two_launches_counterexample :
    (runSched initState0 [false, true, false, true]).pc1 = .done ∧
    (runSched initState0 [false, true, false, true]).pc2 = .done ∧
    (runSched initState0 [false, true, false, true]).launches = 2 := by
  decide

/-- Claim C9 (amended): when the two first requests do not interleave at the
launch await (initialization of the first request completes before the second
checks), exactly one engine instance is launched and the second request
reuses it; in general a task whose check sees an existing browser performs
no launch and reuses the instance. -/
theorem c9_single_launch_when_sequential :
    ((runSched initState0 [false, false, true, true]).pc1 = .done ∧
     (runSched initState0 [false, false, true, true]).pc2 = .done ∧
     (runSched initState0 [false, false, true, true]).launches = 1 ∧
     (runSched initState0 [false, false, true, true]).browser = some 0) ∧
    (∀ (br : Option Nat) (l n b : Nat), br = some b →
      taskStep .check br l n = (.done, br, l, n)) := by
  refine ⟨by decide, ?_⟩
  intro br l n b hb
  subst hb
  rfl

/-- Claim C9 witness: the reuse step applied at a concrete state. -/
theorem c9_single_launch_when_sequential_witness :
    taskStep .check (some 7) 1 8 = (.done, some 7, 1, 8) :=
  (c9_single_launch_when_sequential).2 (some 7) 1 8 7 rfl

/-- Claim C4 (counterexample): with an entry of age exactly the TTL
(300000 ms), the entry exists and its age does not exceed five minutes, yet
the request is not served from the cache and the provider is contacted —
the code requires age strictly below the TTL. -/
theorem c4_ttl_boundary_counterexample :
    cacheGet [("abcdef", ⟨[], 0⟩)] "abcdef" = some ⟨[], 0⟩ ∧
    300000 - 0 ≤ CACHE_TTL_MS ∧
    (handleRecs (some "abcdef") [("abcdef", ⟨[], 0⟩)] 300000 .fail).1.cached = false ∧
    (handleRecs (some "abcdef") [("abcdef", ⟨[], 0⟩)] 300000 .fail).2.2.pageOpened = true := by
  decide

/-- Claim C4 (amended): for a valid id, the cache get serves the stored list
exactly when an entry exists and its age is strictly less than the 5-minute
TTL (tagged `cached`, no provider contact, cache left unchanged); when the
entry is absent or its age is at least the TTL the provider is invoked;
put always overwrites unconditionally; an expired entry is not evicted by a
failed refresh. -/
theorem c4_cache_ttl_semantics (v : Option String) (id : String) (cache : Cache)
    (now : Nat) (nav : NavOutcome) (e : CacheEntry)
    (hv : jsTrim (v.getD "") = id) (hne : id ≠ "") (hid : validId id = true) :
    (cacheGet cache id = some e → now - e.ts < CACHE_TTL_MS →
      handleRecs v cache now nav =
        (⟨200, e.items, none, true⟩, cache, ⟨true, false, false, false⟩)) ∧
    (cacheGet cache id = none ∨ (cacheGet cache id = some e ∧ CACHE_TTL_MS ≤ now - e.ts) →
      (handleRecs v cache now nav).2.2.pageOpened = true) ∧
    (∀ (items : List Item) (ts : Nat),
      cacheGet (cacheSet cache id ⟨items, ts⟩) id = some ⟨items, ts⟩) ∧
    (cacheGet cache id = some e → CACHE_TTL_MS ≤ now - e.ts →
      (handleRecs v cache now .fail).2.1 = cache) := by
  refine ⟨?_, ?_, fun items ts => cacheGet_set cache id ⟨items, ts⟩, ?_⟩
  · intro hget hfresh
    simp only [handleRecs, hv]
    rw [if_neg hne, if_neg (by simp [hid])]
    simp only [hget]
    rw [if_pos hfresh]
  · intro hmiss
    simp only [handleRecs, hv]
    rw [if_neg hne, if_neg (by simp [hid])]
    rcases hmiss with hnone | ⟨hsome, hexp⟩
    · simp only [hnone]
      cases nav with
      | fail => rfl
      | ok data cards =>
        cases hs : evalStructured data MAX_ITEMS with
        | error err => simp [hs]
        | ok items0 => simp [hs]
    · simp only [hsome]
      rw [if_neg (by omega)]
      cases nav with
      | fail => rfl
      | ok data cards =>
        cases hs : evalStructured data MAX_ITEMS with
        | error err => simp [hs]
        | ok items0 => simp [hs]
  · intro hsome hexp
    simp only [handleRecs, hv]
    rw [if_neg hne, if_neg (by simp [hid])]
    simp only [hsome]
    rw [if_neg (by omega)]

/-- Claim C4 witness: a fresh entry (age one millisecond below the TTL) is
served from the cache without contacting the provider. -/
theorem c4_cache_ttl_semantics_witness :
    handleRecs (some "abcdef") [("abcdef", ⟨[], 0⟩)] 299999 .fail =
      (⟨200, [], none, true⟩, [("abcdef", ⟨[], 0⟩)], ⟨true, false, false, false⟩) :=
  (c4_cache_ttl_semantics (some "abcdef") "abcdef" [("abcdef", ⟨[], 0⟩)] 299999 .fail
    ⟨[], 0⟩ (by decide) (by decide) (by decide)).1 (by decide) (by decide)

/-- Claim C6: an id that is empty after trimming yields 400
`missing_video_id`, and a non-empty id failing `[A-Za-z0-9_-]{6,}` yields
400 `bad_video_id`; in both cases neither server variant consults the cache
or contacts upstream (empty trace / no fetch attempted). -/
theorem c6_validation_rejects_without_upstream (v : Option String) (cache : Cache)
    (now : Nat) (nav : NavOutcome) (first second : FetchRes) :
    (jsTrim (v.getD "") = "" →
      handleRecs v cache now nav =
        (⟨400, [], some "missing_video_id", false⟩, cache, ⟨false, false, false, false⟩) ∧
      serverlessHandler v first second = (⟨400, [], some "missing_video_id"⟩, false)) ∧
    (jsTrim (v.getD "") ≠ "" → validId (jsTrim (v.getD "")) = false →
      handleRecs v cache now nav =
        (⟨400, [], some "bad_video_id", false⟩, cache, ⟨false, false, false, false⟩) ∧
      serverlessHandler v first second = (⟨400, [], some "bad_video_id"⟩, false)) := by
  constructor
  · intro h
    constructor
    · simp [handleRecs, h]
    · simp [serverlessHandler, h]
  · intro h hbad
    constructor
    · simp only [handleRecs]
      rw [if_neg h, if_pos (by simp [hbad])]
    · simp only [serverlessHandler]
      rw [if_neg h, if_pos (by simp [hbad])]

/-- Claim C6 witness: a whitespace-only id and a five-character id at
concrete inputs. -/
theorem c6_validation_rejects_without_upstream_witness :
    (handleRecs (some "   ") [] 0 .fail =
      (⟨400, [], some "missing_video_id", false⟩, [], ⟨false, false, false, false⟩)) ∧
    (handleRecs (some "ab-c1") [] 0 .fail =
      (⟨400, [], some "bad_video_id", false⟩, [], ⟨false, false, false, false⟩)) := by
  constructor
  · exact ((c6_validation_rejects_without_upstream (some "   ") [] 0 .fail .httpErr
      .httpErr).1 (by decide)).1
  · exact ((c6_validation_rejects_without_upstream (some "ab-c1") [] 0 .fail .httpErr
      .httpErr).2 (by decide) (by decide)).1

/-- Claim C10: when navigation succeeds and every tier yields zero items,
the empty list is stored in the cache, and any subsequent request for the
id within the TTL is answered 200 with the empty cached list, tagged
`cached`, without opening a page. -/
theorem c10_empty_extraction_is_cached (v : Option String) (id : String) (cache : Cache)
    (now now2 : Nat) (data : JVal) (cards : List DomCard) (nav2 : NavOutcome)
    (hv : jsTrim (v.getD "") = id) (hne : id ≠ "") (hid : validId id = true)
    (hmiss : cacheGet cache id = none)
    (hstruct : evalStructured data MAX_ITEMS = .ok [])
    (hdom : domPick cards MAX_ITEMS = [])
    (hfresh : now2 - now < CACHE_TTL_MS) :
    handleRecs v cache now (.ok data cards) =
      (⟨200, [], none, false⟩, cacheSet cache id ⟨[], now⟩, ⟨true, true, true, false⟩) ∧
    cacheGet (cacheSet cache id ⟨[], now⟩) id = some ⟨[], now⟩ ∧
    handleRecs v (cacheSet cache id ⟨[], now⟩) now2 nav2 =
      (⟨200, [], none, true⟩, cacheSet cache id ⟨[], now⟩, ⟨true, false, false, false⟩) := by
  have hset := cacheGet_set cache id (⟨[], now⟩ : CacheEntry)
  refine ⟨?_, hset, ?_⟩
  · simp only [handleRecs, hv]
    rw [if_neg hne, if_neg (by simp [hid])]
    simp only [hmiss, hstruct, hdom]
    simp
  · simp only [handleRecs, hv]
    rw [if_neg hne, if_neg (by simp [hid])]
    simp only [hset]
    rw [if_pos hfresh]

/-- Claim C10 witness: concrete empty-yield snapshot (no structured data,
no cards), cached and then served from cache. -/
theorem c10_empty_extraction_is_cached_witness :
    handleRecs (some "abcdef") [] 5 (.ok .null []) =
      (⟨200, [], none, false⟩, cacheSet [] "abcdef" ⟨[], 5⟩, ⟨true, true, true, false⟩) ∧
    cacheGet (cacheSet [] "abcdef" ⟨[], 5⟩) "abcdef" = some ⟨[], 5⟩ ∧
    handleRecs (some "abcdef") (cacheSet [] "abcdef" ⟨[], 5⟩) 10 .fail =
      (⟨200, [], none, true⟩, cacheSet [] "abcdef" ⟨[], 5⟩, ⟨true, false, false, false⟩) :=
  c10_empty_extraction_is_cached (some "abcdef") "abcdef" [] 5 10 .null [] .fail
    (by decide) (by decide) (by decide) (by decide) (by decide) (by decide) (by decide)

theorem jsPickThumb_last {xs : List JVal} {e : JVal} {u : String} (id : String)
    (hlast : xs.getLast? = some e) (htr : truthy e = true)
    (hurl : jsGetOpt e "url" = .str u) (hu : u ≠ "") :
    jsPickThumb (.arr xs) id = u := by
  simp only [jsPickThumb, jsLastIndex, hlast, Option.getD_some]
  rw [jvOr, if_pos htr, hurl]
  rw [if_pos (by simp [truthy, hu] : truthy (JVal.str u) = true)]
  rfl

theorem jsPickThumb_first {xs : List JVal} {f : JVal} {u : String} (id : String)
    (hlast : xs.getLast? = some .null) (hhead : xs.head? = some f)
    (htr : truthy f = true) (hurl : jsGetOpt f "url" = .str u) (hu : u ≠ "") :
    jsPickThumb (.arr xs) id = u := by
  simp only [jsPickThumb, jsLastIndex, jsFirstIndex, hlast, hhead, Option.getD_some]
  have hs1 : jvOr JVal.null (jvOr f (JVal.obj [])) = jvOr f (JVal.obj []) := by
    simp [jvOr, truthy]
  have hs2 : jvOr f (JVal.obj []) = f := by rw [jvOr, if_pos htr]
  rw [hs1, hs2, hurl]
  rw [if_pos (by simp [truthy, hu] : truthy (JVal.str u) = true)]
  rfl

/-- Claim C8: the thumbnail of a structured-modern entry is selected from the
ordered image-source list by taking the last element (its `url`, when the
element is present and carries a non-empty url); a nullish last element falls
back to the url of the first element; an empty list falls back to the canonical
id-derived thumbnail; in particular a source list `[lowRes, highRes]` yields
the url of `highRes`. -/
theorem c8_modern_thumbnail (id : String) (xs : List JVal) (lvm : JVal) :
    (jsPickThumb (.arr []) id = canonicalThumb id) ∧
    (∀ e u, xs.getLast? = some e → truthy e = true → jsGetOpt e "url" = .str u → u ≠ "" →
      jsPickThumb (.arr xs) id = u) ∧
    (∀ f u, xs.getLast? = some .null → xs.head? = some f → truthy f = true →
      jsGetOpt f "url" = .str u → u ≠ "" → jsPickThumb (.arr xs) id = u) ∧
    (∀ lo hi u, optChain (modernThumbVM lvm) ["image", "sources"] = .arr [lo, hi] →
      truthy hi = true → jsGetOpt hi "url" = .str u → u ≠ "" → modernThumb lvm id = u) := by
  refine ⟨rfl, fun e u h1 h2 h3 h4 => jsPickThumb_last id h1 h2 h3 h4,
    fun f u h1 h2 h3 h4 h5 => jsPickThumb_first id h1 h2 h3 h4 h5, ?_⟩
  intro lo hi u hsrc htr hurl hu
  have hmt : modernThumb lvm id = jsPickThumb (.arr [lo, hi]) id := by
    simp [modernThumb, hsrc, jvOr, truthy]
  rw [hmt]
  exact jsPickThumb_last id rfl htr hurl hu

/-- Claim C8 witness: the modern entry `exModern` carries the source list
`[lo.jpg, hi.jpg]` and its extracted thumbnail is `hi.jpg`. -/
theorem c8_modern_thumbnail_witness :
    modernThumb (jsGetT exModern "lockupViewModel") "mmmmmm" = "hi.jpg" :=
  (c8_modern_thumbnail "mmmmmm" [] (jsGetT exModern "lockupViewModel")).2.2.2
    (.obj [("url", .str "lo.jpg")]) (.obj [("url", .str "hi.jpg")]) "hi.jpg"
    rfl rfl rfl (by decide)

/-- Claim C2 (counterexample): on a snapshot holding a modern entry followed
by a legacy entry, the strict-priority tier pipeline modelled from the spec
stops after the modern tier (one item), while the single pass of the code returns
items of both shapes — the pipeline does not stop at the first tier that
yields an item. -/
theorem c2_strict_tiers_counterexample :
    evalStructured (wrapData [exModern, exLegacy]) 12 = .ok [exItemM, exItemL] ∧
    specTieredStructured (wrapData [exModern, exLegacy]) 12 = .ok [exItemM] ∧
    evalStructured (wrapData [exModern, exLegacy]) 12 ≠
      specTieredStructured (wrapData [exModern, exLegacy]) 12 := by
  refine ⟨by decide, by decide, ?_⟩
  intro h
  rw [(by decide : evalStructured (wrapData [exModern, exLegacy]) 12 = .ok [exItemM, exItemL]),
    (by decide : specTieredStructured (wrapData [exModern, exLegacy]) 12 = .ok [exItemM])] at h
  simp at h

/-- Claim C2 (amended): the two structured shapes are handled in a single
pass — an entry with a truthy modern shape is handled by the modern branch
only — so a mixed snapshot yields items of both shapes; the rendered-DOM
scrape runs only when the structured pass produced zero items, and in
raw-document mode the plain link scan runs only when the heading-pattern
tier produced zero items (the output of the heading tier is then independent of
the link matches). -/
theorem c2_tier_gates (v : Option String) (id : String) (cache : Cache) (now : Nat)
    (data : JVal) (cards : List DomCard) (p : List HeadMatch) (fb fb2 : List String)
    (l : Nat) (items0 : List Item) (r lvm : JVal) (seen : List String)
    (hv : jsTrim (v.getD "") = id) (hne : id ≠ "") (hid : validId id = true)
    (hmiss : cacheGet cache id = none) :
    (evalStructured data MAX_ITEMS = .ok items0 → items0 ≠ [] →
      (handleRecs v cache now (.ok data cards)).1.items = items0) ∧
    (evalStructured data MAX_ITEMS = .ok [] →
      (handleRecs v cache now (.ok data cards)).1.items = domPick cards MAX_ITEMS) ∧
    (jsGet r "lockupViewModel" = .ok lvm → truthy lvm = true →
      procEntry r seen = procModern lvm seen) ∧
    ((scanPick HeadMatch.vid mkHeadItem l p [] []).1 ≠ [] →
      pickFromHtml p fb l = (scanPick HeadMatch.vid mkHeadItem l p [] []).1 ∧
      pickFromHtml p fb l = pickFromHtml p fb2 l) ∧
    ((scanPick HeadMatch.vid mkHeadItem l p [] []).1 = [] →
      pickFromHtml p fb l = (scanPick (fun i => i) mkFallbackItem l fb [] []).1) := by
  refine ⟨?_, ?_, ?_, ?_, ?_⟩
  · intro hs hne0
    simp only [handleRecs, hv]
    rw [if_neg hne, if_neg (by simp [hid])]
    simp only [hmiss, hs]
    rw [if_neg (by simp [List.length_eq_zero, hne0])]
  · intro hs
    simp only [handleRecs, hv]
    rw [if_neg hne, if_neg (by simp [hid])]
    simp only [hmiss, hs]
    rfl
  · intro hg htr
    simp only [procEntry, hg]
    rw [if_pos htr]
  · intro hp
    have h1 : pickFromHtml p fb l = (scanPick HeadMatch.vid mkHeadItem l p [] []).1 := by
      simp only [pickFromHtml]
      rw [if_neg (by simp [List.length_eq_zero, hp])]
    have h2 : pickFromHtml p fb2 l = (scanPick HeadMatch.vid mkHeadItem l p [] []).1 := by
      simp only [pickFromHtml]
      rw [if_neg (by simp [List.length_eq_zero, hp])]
    exact ⟨h1, by rw [h1, h2]⟩
  · intro hp
    simp only [pickFromHtml]
    rw [if_pos (by simp [hp]), hp, scanPick_empty_snd _ _ _ _ hp]

/-- Claim C2 witness: the gates at concrete inputs — a nonempty structured
result suppresses the DOM scrape; a nonempty heading-tier result makes
the raw link matches irrelevant. -/
theorem c2_tier_gates_witness :
    (handleRecs (some "abcdef") [] 0 (.ok (wrapData [exModern, exLegacy]) [exCard])).1.items =
      [exItemM, exItemL] ∧
    pickFromHtml [⟨"T", "abcdef"⟩] ["zzzzzz"] 12 = pickFromHtml [⟨"T", "abcdef"⟩] [] 12 := by
  constructor
  · exact (c2_tier_gates (some "abcdef") "abcdef" [] 0 (wrapData [exModern, exLegacy])
      [exCard] [] [] [] 12 [exItemM, exItemL] .null .null [] (by decide) (by decide)
      (by decide) (by decide)).1 (by decide) (by decide)
  · exact ((c2_tier_gates (some "abcdef") "abcdef" [] 0 .null [] [⟨"T", "abcdef"⟩]
      ["zzzzzz"] [] 12 [] .null .null [] (by decide) (by decide) (by decide)
      (by decide)).2.2.2.1 (by decide)).2

/-- Claim C3 (counterexample): a malformed structured snapshot whose results
list contains a nullish entry makes the structured tier throw; the request
then returns 500 `scrape_failed` without running the rendered-DOM tier,
even though that tier would have produced an item — the fault is not
treated as "zero items, proceed to the next tier". -/
theorem c3_tier_fault_counterexample :
    evalStructured (wrapData [.null]) 12 = .error () ∧
    domPick [exCard] MAX_ITEMS = [exItemCard] ∧
    handleRecs (some "abcdef") [] 0 (.ok (wrapData [.null]) [exCard]) =
      (⟨500, [], some "scrape_failed", false⟩, [], ⟨true, true, false, false⟩) := by
  refine ⟨by decide, by decide, by decide⟩

/-- Claim C3 (amended): a malformed shape absorbed by the optional-chaining
guards yields zero structured items and the pipeline proceeds to the
rendered-DOM tier; but a structured-tier fault that throws propagates to the
orchestrator catch and the request returns 500 `scrape_failed` instead of
proceeding; no fault escapes the orchestrator — every request produces a
response with status 200, 400 or 500. -/
theorem c3_tier_fault_behavior (v : Option String) (id : String) (cache : Cache)
    (now : Nat) (data : JVal) (cards : List DomCard)
    (hv : jsTrim (v.getD "") = id) (hne : id ≠ "") (hid : validId id = true)
    (hmiss : cacheGet cache id = none) :
    (evalStructured data MAX_ITEMS = .ok [] →
      handleRecs v cache now (.ok data cards) =
        (⟨200, domPick cards MAX_ITEMS, none, false⟩,
          cacheSet cache id ⟨domPick cards MAX_ITEMS, now⟩, ⟨true, true, true, false⟩)) ∧
    (∀ err, evalStructured data MAX_ITEMS = .error err →
      handleRecs v cache now (.ok data cards) =
        (⟨500, [], some "scrape_failed", false⟩, cache, ⟨true, true, false, false⟩)) ∧
    (∀ (v2 : Option String) (c2 : Cache) (n2 : Nat) (nav2 : NavOutcome),
      (handleRecs v2 c2 n2 nav2).1.status = 200 ∨ (handleRecs v2 c2 n2 nav2).1.status = 400 ∨
        (handleRecs v2 c2 n2 nav2).1.status = 500) := by
  refine ⟨?_, ?_, ?_⟩
  · intro hs
    simp only [handleRecs, hv]
    rw [if_neg hne, if_neg (by simp [hid])]
    simp only [hmiss, hs]
    rfl
  · intro err hs
    simp only [handleRecs, hv]
    rw [if_neg hne, if_neg (by simp [hid])]
    simp only [hmiss, hs]
  · intro v2 c2 n2 nav2
    simp only [handleRecs]
    repeat' split
    all_goals simp

/-- Claim C3 witness: an absorbed malformed snapshot (no structured data at
all) falls through to the DOM tier. -/
theorem c3_tier_fault_behavior_witness :
    handleRecs (some "abcdef") [] 0 (.ok .null [exCard]) =
      (⟨200, [exItemCard], none, false⟩, cacheSet [] "abcdef" ⟨[exItemCard], 0⟩,
        ⟨true, true, true, false⟩) := by
  have h := (c3_tier_fault_behavior (some "abcdef") "abcdef" [] 0 .null [exCard]
    (by decide) (by decide) (by decide) (by decide)).1 (by decide)
  rw [h]
  decide

theorem pickFromHtml_eq (p : List HeadMatch) (fb : List String) (l : Nat) :
    pickFromHtml p fb l =
      if (scanPick HeadMatch.vid mkHeadItem l p [] []).1 = []
        then (scanPick (fun i => i) mkFallbackItem l fb [] []).1
        else (scanPick HeadMatch.vid mkHeadItem l p [] []).1 := by
  by_cases h : (scanPick HeadMatch.vid mkHeadItem l p [] []).1 = []
  · simp only [pickFromHtml]
    rw [if_pos (by simp [h]), if_pos h, h, scanPick_empty_snd _ _ _ _ h]
  · simp only [pickFromHtml]
    rw [if_neg (by simp [List.length_eq_zero, h]), if_neg h]

/-- Claim C1: each extraction tier returns at most 12 items with pairwise
distinct ids over every snapshot; every kept item is the one built from the
first source element offering its id, and the output ids form a subsequence
of the source-order id sequence (never re-sorted). -/
theorem c1_extraction_bounded_dedup_ordered (p : List HeadMatch) (fb : List String)
    (data : JVal) (cards : List DomCard) (res : List Item) :
    ((pickFromHtml p fb 12).length ≤ 12 ∧
      ((pickFromHtml p fb 12).map ItemF.id).Nodup ∧
      ((scanPick HeadMatch.vid mkHeadItem 12 p [] []).1 ≠ [] →
        List.Sublist ((pickFromHtml p fb 12).map ItemF.id) (p.map HeadMatch.vid) ∧
        ∀ it ∈ pickFromHtml p fb 12,
          ∃ m, List.find? (fun y => HeadMatch.vid y == ItemF.id it) p = some m ∧
            it = mkHeadItem m) ∧
      ((scanPick HeadMatch.vid mkHeadItem 12 p [] []).1 = [] →
        List.Sublist ((pickFromHtml p fb 12).map ItemF.id) fb ∧
        ∀ it ∈ pickFromHtml p fb 12,
          ∃ i, List.find? (fun y => y == ItemF.id it) fb = some i ∧
            it = mkFallbackItem i)) ∧
    (evalStructured data 12 = .ok res →
      res.length ≤ 12 ∧ (res.map Item.id).Nodup ∧
      List.Sublist (res.map Item.id) (idTrace (resultsList data)) ∧
      ∀ it ∈ res, ∃ r, firstWithId it.id (resultsList data) = some r ∧
        procEntry r [] = .ok (some it)) ∧
    ((domPick cards 12).length ≤ 12 ∧
      ((domPick cards 12).map Item.id).Nodup ∧
      List.Sublist ((domPick cards 12).map Item.id) (cards.map domKey) ∧
      ∀ it ∈ domPick cards 12,
        ∃ c, List.find? (fun y => domKey y == Item.id it) cards = some c ∧
          it = mkDomItem c) := by
  refine ⟨⟨?_, ?_, ?_, ?_⟩, fun h => evalStructured_props (by norm_num) h, ?_, ?_, ?_, ?_⟩
  · rw [pickFromHtml_eq]
    by_cases h : (scanPick HeadMatch.vid mkHeadItem 12 p [] []).1 = []
    · rw [if_pos h]; exact scanPick_length _ _ _ _
    · rw [if_neg h]; exact scanPick_length _ _ _ _
  · rw [pickFromHtml_eq]
    by_cases h : (scanPick HeadMatch.vid mkHeadItem 12 p [] []).1 = []
    · rw [if_pos h]; exact scanPick_nodup _ _ ItemF.id mkFallbackItem_id 12 fb
    · rw [if_neg h]; exact scanPick_nodup _ _ ItemF.id mkHeadItem_id 12 p
  · intro h
    rw [pickFromHtml_eq, if_neg h]
    exact ⟨scanPick_source_order _ _ ItemF.id mkHeadItem_id 12 p,
      scanPick_firstOcc _ _ ItemF.id mkHeadItem_id 12 p⟩
  · intro h
    rw [pickFromHtml_eq, if_pos h]
    constructor
    · have hso := scanPick_source_order (fun i => i) mkFallbackItem ItemF.id
        mkFallbackItem_id 12 fb
      simpa using hso
    · exact scanPick_firstOcc _ _ ItemF.id mkFallbackItem_id 12 fb
  · simp only [domPick]
    exact scanPick_length _ _ _ _
  · simp only [domPick]
    exact scanPick_nodup _ _ Item.id mkDomItem_id 12 cards
  · simp only [domPick]
    exact scanPick_source_order _ _ Item.id mkDomItem_id 12 cards
  · simp only [domPick]
    exact scanPick_firstOcc _ _ Item.id mkDomItem_id 12 cards

/-- Claim C1 witness: the structured bound and dedup at a concrete mixed
snapshot and a concrete duplicate-id match stream. -/
theorem c1_extraction_bounded_dedup_ordered_witness :
    ([exItemM, exItemL] : List Item).length ≤ 12 ∧
    (([exItemM, exItemL] : List Item).map Item.id).Nodup ∧
    (pickFromHtml [⟨"T1", "abcdef"⟩, ⟨"T2", "abcdef"⟩] [] 12).length ≤ 12 := by
  have h := c1_extraction_bounded_dedup_ordered [⟨"T1", "abcdef"⟩, ⟨"T2", "abcdef"⟩] []
    (wrapData [exModern, exLegacy]) [] [exItemM, exItemL]
  have h2 := h.2.1 (by decide)
  exact ⟨h2.1, h2.2.1, h.1.1⟩

end RecsBackend
